import Mathlib

/-!
Verification of the BurstChain hello-world REST client
(`src/hello_world_scripts/testnet_example.py`).

The development shallowly embeds the client: JSON values are an inductive
type, the HTTP transport is an explicit function from requests to
responses, and the fallible paths of the Python code (`exit(1)` on a
non-200 status, `json.loads` failures, attribute access on `None`) are
modelled with an `Except` result. `Json.parse` models `json.loads` and
`Json.dump` models the JSON encoding performed by the transport layer.
-/

set_option autoImplicit false

/-- JSON values, as produced by `json.loads` and consumed by the JSON
encoder of the HTTP layer.  Numbers are restricted to integers, which is
all the client ever sends. -/
inductive Json where
  | null
  | bool (b : Bool)
  | num (n : Int)
  | str (s : String)
  | arr (xs : List Json)
  | obj (kvs : List (String × Json))

/-- Opening curly brace character (written via its code point). -/
def lbrace : Char := Char.ofNat 123

/-- Closing curly brace character (written via its code point). -/
def rbrace : Char := Char.ofNat 125

/-- JSON insignificant whitespace. -/
def isWsChar (c : Char) : Bool := c = ' ' || c = '\t' || c = '\n' || c = '\r'

/-- ASCII decimal digit test. -/
def isDig (c : Char) : Bool := decide (48 ≤ c.toNat) && decide (c.toNat ≤ 57)

/-- Numeric value of an ASCII digit. -/
def digitVal (c : Char) : Nat := c.toNat - 48

/-- Drop leading JSON whitespace. -/
def skipWs : List Char → List Char
  | [] => []
  | c :: cs => if isWsChar c then skipWs cs else c :: cs

/-- Decode a character following a backslash in a JSON string literal. -/
def escDecode (c : Char) : Option Char :=
  if c = '"' then some '"'
  else if c = '\\' then some '\\'
  else if c = '/' then some '/'
  else if c = 'n' then some '\n'
  else if c = 't' then some '\t'
  else if c = 'r' then some '\r'
  else none

/-- Parse the body of a JSON string literal (the opening quote already
consumed), returning the decoded characters and the remaining input. -/
def parseStrChars : List Char → Option (List Char × List Char)
  | [] => none
  | c :: cs =>
    if c = '"' then some ([], cs)
    else if c = '\\' then
      match cs with
      | [] => none
      | e :: cs' =>
        match escDecode e with
        | none => none
        | some d =>
          match parseStrChars cs' with
          | none => none
          | some (s, r) => some (d :: s, r)
    else
      match parseStrChars cs with
      | none => none
      | some (s, r) => some (c :: s, r)

/-- Take the maximal leading run of ASCII digits. -/
def takeDigits : List Char → List Char × List Char
  | [] => ([], [])
  | c :: cs =>
    if isDig c then
      let (ds, r) := takeDigits cs
      (c :: ds, r)
    else ([], c :: cs)

/-- Value of a big-endian list of ASCII digits. -/
def digitsVal (ds : List Char) : Nat := ds.foldl (fun a c => 10 * a + digitVal c) 0

/-- Whether the input does not continue with an ASCII digit, so that a
number parse just before it is maximal. -/
def headNotDig : List Char → Bool
  | [] => true
  | c :: _ => !isDig c

/-- Expect a fixed sequence of characters, returning the rest. -/
def expects : List Char → List Char → Option (List Char)
  | [], cs => some cs
  | _ :: _, [] => none
  | e :: es, c :: cs => if c = e then expects es cs else none

mutual

/-- Fuel-based parser for a single JSON value. -/
def parseVal : Nat → List Char → Option (Json × List Char)
  | 0, _ => none
  | g + 1, cs =>
    match skipWs cs with
    | [] => none
    | c :: rest =>
      if c = 'n' then
        match expects ['u', 'l', 'l'] rest with
        | some r => some (Json.null, r)
        | none => none
      else if c = 't' then
        match expects ['r', 'u', 'e'] rest with
        | some r => some (Json.bool true, r)
        | none => none
      else if c = 'f' then
        match expects ['a', 'l', 's', 'e'] rest with
        | some r => some (Json.bool false, r)
        | none => none
      else if c = '"' then
        match parseStrChars rest with
        | some (s, r) => some (Json.str (String.mk s), r)
        | none => none
      else if c = '-' then
        match takeDigits rest with
        | ([], _) => none
        | (ds, r) => some (Json.num (-(digitsVal ds : Int)), r)
      else if isDig c then
        match takeDigits (c :: rest) with
        | (ds, r) => some (Json.num ((digitsVal ds : Int)), r)
      else if c = '[' then
        match parseElems g rest with
        | some (xs, r) => some (Json.arr xs, r)
        | none => none
      else if c = lbrace then
        match parseMembers g rest with
        | some (kvs, r) => some (Json.obj kvs, r)
        | none => none
      else none

/-- Fuel-based parser for array elements up to the closing bracket. -/
def parseElems : Nat → List Char → Option (List Json × List Char)
  | 0, cs =>
    match skipWs cs with
    | [] => none
    | c :: rest => if c = ']' then some ([], rest) else none
  | g + 1, cs =>
    match skipWs cs with
    | [] => none
    | c :: rest =>
      if c = ']' then some ([], rest)
      else
        match parseVal g (c :: rest) with
        | none => none
        | some (v, r1) =>
          match skipWs r1 with
          | [] => none
          | c2 :: r2 =>
            if c2 = ',' then
              match parseElems g r2 with
              | some (vs, r3) => some (v :: vs, r3)
              | none => none
            else if c2 = ']' then some ([v], r2)
            else none

/-- Fuel-based parser for object members up to the closing brace. -/
def parseMembers : Nat → List Char → Option (List (String × Json) × List Char)
  | 0, cs =>
    match skipWs cs with
    | [] => none
    | c :: rest => if c = rbrace then some ([], rest) else none
  | g + 1, cs =>
    match skipWs cs with
    | [] => none
    | c :: rest =>
      if c = rbrace then some ([], rest)
      else if c = '"' then
        match parseStrChars rest with
        | none => none
        | some (kcs, r1) =>
          match skipWs r1 with
          | [] => none
          | c1 :: r2 =>
            if c1 = ':' then
              match parseVal g r2 with
              | none => none
              | some (v, r3) =>
                match skipWs r3 with
                | [] => none
                | c2 :: r4 =>
                  if c2 = ',' then
                    match parseMembers g r4 with
                    | some (kvs, r5) => some ((String.mk kcs, v) :: kvs, r5)
                    | none => none
                  else if c2 = rbrace then some ([(String.mk kcs, v)], r4)
                  else none
            else none
      else none

end

/-- Model of Python `json.loads`: parse a complete JSON document. -/
def Json.parse (s : String) : Option Json :=
  match parseVal (s.length + 1) s.toList with
  | some (j, r) => if skipWs r = [] then some j else none
  | none => none

/-- ASCII digit character for a value below ten. -/
def digitChar (d : Nat) : Char := "0123456789".toList.getD d '0'

/-- Decimal digits of a natural number, most significant first. -/
def natChars (m : Nat) : List Char :=
  if m = 0 then ['0'] else (Nat.digits 10 m).reverse.map digitChar

/-- JSON string-literal encoding of one character. -/
def escapeChar (c : Char) : List Char :=
  if c = '"' || c = '\\' then ['\\', c]
  else if c = '\n' then ['\\', 'n']
  else if c = '\t' then ['\\', 't']
  else if c = '\r' then ['\\', 'r']
  else [c]

/-- JSON string-literal encoding of a character sequence. -/
def escapeChars (s : List Char) : List Char := s.foldr (fun c acc => escapeChar c ++ acc) []

/-- JSON encoding of a string, including the surrounding quotes. -/
def strChars (s : String) : List Char := '"' :: (escapeChars s.toList ++ ['"'])

/-- JSON encoding of an integer. -/
def intChars (n : Int) : List Char :=
  if n < 0 then '-' :: natChars n.natAbs else natChars n.toNat

mutual

/-- JSON encoding of a value, as the transport layer serializes request
bodies. -/
def dumpChars : Json → List Char
  | .null => "null".toList
  | .bool true => "true".toList
  | .bool false => "false".toList
  | .num n => intChars n
  | .str s => strChars s
  | .arr xs => '[' :: (dumpElems xs ++ [']'])
  | .obj kvs => lbrace :: (dumpMembers kvs ++ [rbrace])

/-- JSON encoding of array elements, comma separated. -/
def dumpElems : List Json → List Char
  | [] => []
  | [x] => dumpChars x
  | x :: y :: ys => dumpChars x ++ ',' :: dumpElems (y :: ys)

/-- JSON encoding of object members, comma separated. -/
def dumpMembers : List (String × Json) → List Char
  | [] => []
  | [(k, v)] => strChars k ++ ':' :: dumpChars v
  | (k, v) :: m :: ms => strChars k ++ ':' :: dumpChars v ++ ',' :: dumpMembers (m :: ms)

end

/-- Model of the JSON serialization applied to a request body. -/
def Json.dump (j : Json) : String := String.mk (dumpChars j)


/-- Association-list lookup with Python dict semantics: the last
occurrence of a key is the binding the dict would hold. -/
def lastLookup {α : Type} : List (String × α) → String → Option α
  | [], _ => none
  | (k', v) :: rest, k => (lastLookup rest k).or (if k' = k then some v else none)

/-- Key membership in an association list. -/
def containsKey {α : Type} (d : List (String × α)) (k : String) : Bool :=
  d.any (fun p => p.1 = k)

/-- Python dict item assignment: replace in place when the key exists,
append otherwise. -/
def dictInsert {α : Type} (d : List (String × α)) (k : String) (v : α) :
    List (String × α) :=
  if containsKey d k then d.map (fun p => if p.1 = k then (k, v) else p) else d ++ [(k, v)]

/-- Python `dict.update`: fold the item assignments into the base dict in
order. -/
def dictUpdate {α : Type} (d addl : List (String × α)) : List (String × α) :=
  addl.foldl (fun acc p => dictInsert acc p.1 p.2) d

/-- An outgoing HTTP request as handed to `requests.Session.request`:
method, full URL, headers, optional JSON body, optional basic-auth pair. -/
structure HttpRequest where
  action : String
  url : String
  headers : List (String × String)
  body : Option Json
  auth : Option (String × String)

/-- The observable part of an HTTP response: status code and body text. -/
structure HttpResponse where
  status_code : Nat
  text : String

/-- A remote server: a deterministic mapping from requests to responses. -/
abbrev Remote : Type := HttpRequest → HttpResponse

/-- The abnormal terminations the client can take: `exit(1)` after logging
an error line, a `json.loads` decode exception, or an `AttributeError`
from calling `.get` on a value that is not a dict. -/
inductive Abort where
  | exitCall (logLine : String)
  | jsonError
  | attrError

/-- The client state set up by `BurstChainClient.__init__`: base server
URL, tenant identifier, and the session's `trust_env` flag (assigned
`False` there, which disables ambient credential files such as
`~/.netrc`). -/
structure BurstChainClient where
  server : String
  client : String
  session_trust_env : Bool

/-- Model of `BurstChainClient.__init__`. -/
def BurstChainClient.make (server client : String) : BurstChainClient :=
  { server := server, client := client, session_trust_env := false }

/-- The fixed base headers built at the top of `_send` (the source sets
`Content-Accept`, not `Accept`). -/
def baseHeaders : List (String × String) :=
  [("Content-Type", "application/json"), ("Content-Accept", "application/json")]

namespace BurstChainClient

/-- The request `_send` issues: base headers updated with the additional
headers when they are truthy, the URL `server + path`, and the JSON body
and basic-auth pair passed through. -/
def _send_request (c : BurstChainClient) (action path : String)
    (addl_headers : Option (List (String × String))) (body : Option Json)
    (auth : Option (String × String)) : HttpRequest :=
  { action := action
    url := c.server ++ path
    headers :=
      match addl_headers with
      | some h => dictUpdate baseHeaders h
      | none => baseHeaders
    body := body
    auth := auth }

/-- How `_send` turns the HTTP response into a result: `exit(1)` with the
logged diagnostic on a non-200 status, else the decoded JSON body when the
body text is non-empty, else `None`. -/
def _send_handle (path : String) (response : HttpResponse) : Except Abort (Option Json) :=
  if response.status_code ≠ 200 then
    .error (.exitCall ("Call for " ++ path ++ " failed with code "
      ++ toString response.status_code ++ " and response of " ++ response.text))
  else if response.text ≠ "" then
    match Json.parse response.text with
    | some j => .ok (some j)
    | none => .error .jsonError
  else .ok none

/-- Model of `BurstChainClient._send`. -/
def _send (c : BurstChainClient) (remote : Remote) (action path : String)
    (addl_headers : Option (List (String × String))) (body : Option Json)
    (auth : Option (String × String)) : Except Abort (Option Json) :=
  _send_handle path (remote (_send_request c action path addl_headers body auth))

/-- Model of `BurstChainClient._send_with_priv_id`: a truthy private id
becomes an `Authorization: ID <token>` header, no basic auth is passed. -/
def _send_with_priv_id (c : BurstChainClient) (remote : Remote) (action path : String)
    (priv_id : Option String) (body : Option Json) : Except Abort (Option Json) :=
  let headers : Option (List (String × String)) :=
    match priv_id with
    | some s => if s = "" then none else some [("Authorization", "ID " ++ s)]
    | none => none
  _send c remote action path headers body none

/-- Python `resp.get(key)` on the value returned by `_send`: an
`AttributeError` unless the response decoded to a JSON object, else the
dict lookup (with `None` for a missing key). -/
def respGet (resp : Option Json) (k : String) : Except Abort (Option Json) :=
  match resp with
  | some (Json.obj kvs) => .ok (lastLookup kvs k)
  | _ => .error .attrError

/-- Conversion of a Python list of strings to a JSON array. -/
def strArr (l : List String) : Json := Json.arr (l.map Json.str)

/-- Conversion of a Python optional dict argument to the JSON value the
body holds for it (`None` serializes as `null`). -/
def optJson (o : Option Json) : Json :=
  match o with
  | some j => j
  | none => Json.null

/-- Conversion of a Python optional string argument to the JSON value the
body holds for it. -/
def optStr (o : Option String) : Json :=
  match o with
  | some s => Json.str s
  | none => Json.null

/-- Model of `put_metadata`. -/
def put_metadata (c : BurstChainClient) (remote : Remote) (dictionary : Json)
    (username password : String) : Except Abort (Option Json) :=
  _send c remote "PUT" "/api/metadata/dictionary" none (some dictionary)
    (some (username, password))

/-- Model of `get_private_id`. -/
def get_private_id (c : BurstChainClient) (remote : Remote) : Except Abort (Option Json) := do
  let resp ← _send c remote "GET" "/api/burstchain/id/private" none none none
  respGet resp "private_id"

/-- Model of `get_public_id`. -/
def get_public_id (c : BurstChainClient) (remote : Remote) (private_id : Option String) :
    Except Abort (Option Json) := do
  let resp ← _send_with_priv_id c remote "GET" "/api/burstchain/id/public" private_id none
  respGet resp "public_id"

/-- Model of `create_asset`. -/
def create_asset (c : BurstChainClient) (remote : Remote) (private_id : Option String)
    (chain_name : String) (owners : List String) (asset : Json)
    (asset_metadata : Option Json) : Except Abort (Option Json) := do
  let body := Json.obj [("owners", strArr owners), ("asset", asset),
    ("asset_metadata", optJson asset_metadata)]
  let resp ← _send_with_priv_id c remote "POST"
    ("/api/burstchain/" ++ c.client ++ "/" ++ chain_name ++ "/asset") private_id (some body)
  respGet resp "asset_id"

/-- Model of `get_asset_status`. -/
def get_asset_status (c : BurstChainClient) (remote : Remote) (private_id : Option String)
    (chain_name asset_id : String) : Except Abort (Option Json) := do
  let resp ← _send_with_priv_id c remote "GET"
    ("/api/burstchain/" ++ c.client ++ "/" ++ chain_name ++ "/" ++ asset_id ++ "/status")
    private_id none
  respGet resp "message"

/-- Model of `get_asset_by_id`. -/
def get_asset_by_id (c : BurstChainClient) (remote : Remote) (private_id : Option String)
    (chain_name asset_id : String) : Except Abort (Option Json) :=
  _send_with_priv_id c remote "GET"
    ("/api/burstchain/" ++ c.client ++ "/" ++ chain_name ++ "/" ++ asset_id ++ "/latest")
    private_id none

/-- Model of `get_asset_by_hash`. -/
def get_asset_by_hash (c : BurstChainClient) (remote : Remote) (private_id : Option String)
    (chain_name hash_value : String) : Except Abort (Option Json) :=
  _send_with_priv_id c remote "GET"
    ("/api/burstchain/" ++ c.client ++ "/" ++ chain_name ++ "/" ++ hash_value)
    private_id none

/-- Model of `update_asset`. -/
def update_asset (c : BurstChainClient) (remote : Remote) (private_id : Option String)
    (chain_name asset_id : String) (asset : Json) (asset_metadata : Option Json) :
    Except Abort (Option Json) := do
  let body := Json.obj [("asset_id", Json.str asset_id), ("asset", asset),
    ("asset_metadata", optJson asset_metadata)]
  let resp ← _send_with_priv_id c remote "PUT"
    ("/api/burstchain/" ++ c.client ++ "/" ++ chain_name ++ "/asset") private_id (some body)
  respGet resp "asset_id"

/-- Model of `transfer_asset`. -/
def transfer_asset (c : BurstChainClient) (remote : Remote) (private_id : Option String)
    (chain_name asset_id : String) (owners new_owners : List String)
    (new_signer_public_id : String) : Except Abort (Option Json) := do
  let body := Json.obj [("asset_id", Json.str asset_id), ("owners", strArr owners),
    ("new_owners", strArr new_owners), ("new_signer_public_id", Json.str new_signer_public_id)]
  let resp ← _send_with_priv_id c remote "POST"
    ("/api/burstchain/" ++ c.client ++ "/" ++ chain_name ++ "/transfer") private_id (some body)
  respGet resp "asset_id"

/-- Model of `query`. -/
def query (c : BurstChainClient) (remote : Remote) (private_id : Option String)
    (chain_name tql : String) : Except Abort (Option Json) := do
  let body := Json.obj [("tqlWhereClause", Json.str tql)]
  let resp ← _send_with_priv_id c remote "POST"
    ("/api/burstchain/" ++ c.client ++ "/" ++ chain_name ++ "/query") private_id (some body)
  respGet resp "assets"

/-- Model of `map_reduce`. -/
def map_reduce (c : BurstChainClient) (remote : Remote) (private_id : Option String)
    (chain_name map_func reduce_func : String) (finalize_func : Option String)
    (tql : String) : Except Abort (Option Json) := do
  let body := Json.obj [("map", Json.str map_func), ("reduce", Json.str reduce_func),
    ("finalize", optStr finalize_func), ("tqlWhereClause", Json.str tql)]
  let resp ← _send_with_priv_id c remote "POST"
    ("/api/burstchain/" ++ c.client ++ "/" ++ chain_name ++ "/mapreduce/query")
    private_id (some body)
  respGet resp "records"

/-- Model of `create_consent`. -/
def create_consent (c : BurstChainClient) (remote : Remote) (private_id : Option String)
    (chain_name : String) (owners : List String) (contract_name contract : String) :
    Except Abort (Option Json) := do
  let body := Json.obj [("contract", Json.str contract), ("name", Json.str contract_name),
    ("smart_contract_metadata", Json.obj [("loaded by", Json.str "hello world demo")]),
    ("smart_contract_type", Json.str "consent"), ("owners", strArr owners)]
  let resp ← _send_with_priv_id c remote "POST"
    ("/api/burstchain/" ++ c.client ++ "/" ++ chain_name ++ "/smartcontract")
    private_id (some body)
  respGet resp "asset_id"

end BurstChainClient

/-- A remote that always answers 200 with an empty body. -/
def emptyOkRemote : Remote := fun _ => ⟨200, ""⟩

open BurstChainClient


@[simp] theorem lastLookup_nil {α : Type} (k : String) :
    lastLookup ([] : List (String × α)) k = none := rfl

@[simp] theorem lastLookup_cons {α : Type} (k' : String) (v : α)
    (rest : List (String × α)) (k : String) :
    lastLookup ((k', v) :: rest) k =
      (lastLookup rest k).or (if k' = k then some v else none) := rfl

theorem lastLookup_append {α : Type} (d e : List (String × α)) (k : String) :
    lastLookup (d ++ e) k = (lastLookup e k).or (lastLookup d k) := by
  induction d with
  | nil => simp
  | cons p rest ih =>
    obtain ⟨k', v⟩ := p
    simp [ih, Option.or_assoc]

@[simp] theorem containsKey_nil {α : Type} (k : String) :
    containsKey ([] : List (String × α)) k = false := rfl

theorem containsKey_cons {α : Type} (a : String) (b : α) (rest : List (String × α))
    (k : String) :
    containsKey ((a, b) :: rest) k = (decide (a = k) || containsKey rest k) := rfl

theorem lastLookup_replace {α : Type} (d : List (String × α)) (k : String) (v : α)
    (k' : String) :
    lastLookup (d.map (fun p => if p.1 = k then (k, v) else p)) k' =
      if k' = k then (if containsKey d k then some v else none) else lastLookup d k' := by
  induction d with
  | nil => by_cases hk : k' = k <;> simp [hk]
  | cons p rest ih =>
    obtain ⟨a, b⟩ := p
    rw [List.map_cons, lastLookup_cons, ih, containsKey_cons, lastLookup_cons]
    by_cases hak : a = k
    · by_cases hk : k' = k
      · by_cases hcr : containsKey rest k <;> simp [hak, hk, hcr]
      · have hka : ¬ a = k' := fun h => hk (h.symm.trans hak)
        have hkk : ¬ k = k' := fun h => hk h.symm
        simp [hak, hk, hka, hkk]
    · by_cases hk : k' = k
      · have hka : ¬ a = k' := fun h => hak (h.trans hk)
        simp [hak, hk, hka]
      · simp [hak, hk]

theorem lastLookup_dictInsert {α : Type} (d : List (String × α)) (k : String) (v : α)
    (k' : String) :
    lastLookup (dictInsert d k v) k' = if k' = k then some v else lastLookup d k' := by
  unfold dictInsert
  by_cases h : containsKey d k
  · simp [h, lastLookup_replace]
  · rw [if_neg (by simp [h]), lastLookup_append]
    by_cases hk : k' = k
    · subst hk; simp
    · have hk2 : ¬ k = k' := fun h2 => hk h2.symm
      simp [hk, hk2]

theorem lastLookup_dictUpdate {α : Type} (addl : List (String × α))
    (d : List (String × α)) (k : String) :
    lastLookup (dictUpdate d addl) k = (lastLookup addl k).or (lastLookup d k) := by
  induction addl generalizing d with
  | nil => simp [dictUpdate]
  | cons p rest ih =>
    obtain ⟨k', v⟩ := p
    show lastLookup (dictUpdate (dictInsert d k' v) rest) k = _
    rw [ih, lastLookup_dictInsert, lastLookup_cons]
    cases lastLookup rest k with
    | some w => simp
    | none =>
      by_cases hk : k = k'
      · subst hk; simp
      · have hk2 : ¬ k' = k := fun h => hk h.symm
        simp [hk, hk2]

/-- C1 counterexample: with no extra headers supplied, the request built by
`_send` carries no `Accept` header at all; the second fixed header the code
sets is the nonstandard `Content-Accept`. -/
theorem c1_no_accept_header :
    lastLookup (_send_request (BurstChainClient.make "https://s" "t")
        "GET" "/p" none none none).headers "Accept" = none ∧
    lastLookup (_send_request (BurstChainClient.make "https://s" "t")
        "GET" "/p" none none none).headers "Content-Accept" = some "application/json" := by
  exact ⟨by decide, by decide⟩

/-- C1 (amended): for every call made through `_send`, the outgoing request
carries the fixed base headers `Content-Type: application/json` and
`Content-Accept: application/json` (the code sets `Content-Accept`, not
`Accept`), and an explicitly supplied extra-headers map is merged on top of
that base by dict update, able to override or extend it; no other header
logic exists. -/
theorem c1_headers_base_and_merge (c : BurstChainClient) (action path : String)
    (body : Option Json) (auth : Option (String × String)) (k : String) :
    ((_send_request c action path none body auth).headers = baseHeaders) ∧
    (∀ addl : List (String × String),
      lastLookup (_send_request c action path (some addl) body auth).headers k =
        (lastLookup addl k).or (lastLookup baseHeaders k)) := by
  refine ⟨rfl, fun addl => ?_⟩
  show lastLookup (dictUpdate baseHeaders addl) k = _
  exact lastLookup_dictUpdate addl baseHeaders k

/-- C2: when the remote responds with HTTP status 200, `_send` returns the
JSON-decoded response body when the body text is non-empty, and returns
`None` (not an error) when the body is empty. -/
theorem c2_send_success (c : BurstChainClient) (remote : Remote) (action path : String)
    (addl_headers : Option (List (String × String))) (body : Option Json)
    (auth : Option (String × String))
    (h200 : (remote (_send_request c action path addl_headers body auth)).status_code = 200) :
    ((remote (_send_request c action path addl_headers body auth)).text = "" →
      _send c remote action path addl_headers body auth = .ok none) ∧
    (∀ j : Json,
      Json.parse (remote (_send_request c action path addl_headers body auth)).text = some j →
      _send c remote action path addl_headers body auth = .ok (some j)) := by
  constructor
  · intro hempty
    simp [_send, _send_handle, h200, hempty]
  · intro j hj
    have hne : (remote (_send_request c action path addl_headers body auth)).text ≠ "" := by
      intro h0
      rw [h0] at hj
      exact Option.noConfusion hj
    simp [_send, _send_handle, h200, hne, hj]

/-- Witness for C2 at concrete remotes: an empty 200 body yields `None`, and
a 200 body of `null` yields the decoded JSON value. -/
theorem c2_send_success_witness :
    _send (BurstChainClient.make "s" "t") (fun _ => ⟨200, ""⟩) "GET" "/p" none none none
        = .ok none ∧
    _send (BurstChainClient.make "s" "t") (fun _ => ⟨200, "null"⟩) "GET" "/p" none none none
        = .ok (some Json.null) :=
  ⟨(c2_send_success _ _ _ _ _ _ _ rfl).1 rfl,
   (c2_send_success _ _ _ _ _ _ _ rfl).2 Json.null rfl⟩

/-- C3: when the remote responds with any status other than 200, `_send`
never returns a value: it emits one diagnostic naming the failed path, the
status code and the response text, and terminates the process via
`exit(1)`; there is no retry and no recoverable error path. -/
theorem c3_send_fatal (c : BurstChainClient) (remote : Remote) (action path : String)
    (addl_headers : Option (List (String × String))) (body : Option Json)
    (auth : Option (String × String))
    (h : (remote (_send_request c action path addl_headers body auth)).status_code ≠ 200) :
    _send c remote action path addl_headers body auth =
      .error (.exitCall ("Call for " ++ path ++ " failed with code "
        ++ toString (remote (_send_request c action path addl_headers body auth)).status_code
        ++ " and response of "
        ++ (remote (_send_request c action path addl_headers body auth)).text)) := by
  simp [_send, _send_handle, h]

/-- Witness for C3: a remote answering 500 with body `boom` makes `_send`
abort with the logged diagnostic. -/
theorem c3_send_fatal_witness :
    _send (BurstChainClient.make "s" "t") (fun _ => ⟨500, "boom"⟩) "GET" "/p" none none none
      = .error (.exitCall "Call for /p failed with code 500 and response of boom") :=
  c3_send_fatal _ _ _ _ _ _ _ (by decide)

/-- C4: `_send_with_priv_id` with a non-empty token delegates to `_send`
with exactly the extra header `Authorization: ID <token>` and no basic
auth; with an absent token it delegates with no extra headers and no basic
auth; in both cases the result is exactly the delegated `_send` result. -/
theorem c4_priv_id_header (c : BurstChainClient) (remote : Remote) (action path : String)
    (t : String) (body : Option Json) (ht : t ≠ "") :
    (_send_with_priv_id c remote action path (some t) body =
      _send c remote action path (some [("Authorization", "ID " ++ t)]) body none) ∧
    (_send_with_priv_id c remote action path none body =
      _send c remote action path none body none) := by
  constructor
  · simp [_send_with_priv_id, ht]
  · rfl

/-- Witness for C4 at a concrete token and remote. -/
theorem c4_priv_id_header_witness :
    (_send_with_priv_id (BurstChainClient.make "s" "t") (fun _ => ⟨200, ""⟩) "GET" "/p"
        (some "P1") none =
      _send (BurstChainClient.make "s" "t") (fun _ => ⟨200, ""⟩) "GET" "/p"
        (some [("Authorization", "ID P1")]) none none) ∧
    (_send_with_priv_id (BurstChainClient.make "s" "t") (fun _ => ⟨200, ""⟩) "GET" "/p"
        none none =
      _send (BurstChainClient.make "s" "t") (fun _ => ⟨200, ""⟩) "GET" "/p"
        none none none) :=
  c4_priv_id_header (BurstChainClient.make "s" "t") (fun _ => ⟨200, ""⟩) "GET" "/p" "P1" none
    (by decide)

/-- C7: a client built from a server base URL and a tenant identifier stores
exactly those two values, never mutates them (the embedding is stateless
because no method assigns to them), disables the ambient credential lookup
of the session (`trust_env = False`, so no `~/.netrc` is consulted), and
the only credentials on the wire are the ones passed explicitly to the
call. -/
theorem c7_construction (server client : String) :
    (BurstChainClient.make server client).server = server ∧
    (BurstChainClient.make server client).client = client ∧
    (BurstChainClient.make server client).session_trust_env = false ∧
    (∀ (action path : String) (addl : Option (List (String × String)))
        (body : Option Json) (auth : Option (String × String)),
      (_send_request (BurstChainClient.make server client) action path addl body auth).auth
        = auth) :=
  ⟨rfl, rfl, rfl, fun _ _ _ _ _ => rfl⟩

/-- C9: a supplied but empty-string private id is treated exactly like an
absent one, because the code tests the token for truthiness: the delegated
call carries no extra headers, hence no `Authorization` header, and no
basic auth. -/
theorem c9_empty_token (c : BurstChainClient) (remote : Remote) (action path : String)
    (body : Option Json) :
    (_send_with_priv_id c remote action path (some "") body =
      _send_with_priv_id c remote action path none body) ∧
    lastLookup (_send_request c action path none body none).headers "Authorization" = none ∧
    (_send_request c action path none body none).auth = none :=
  ⟨rfl, rfl, rfl⟩

/-- C10: every field-extracting domain operation projects a field out of
the `_send` response, so when the remote answers 200 with an empty body —
where `_send` itself returns `None` — the operation raises an
`AttributeError` instead of returning an absent result; a non-empty 200
response body is an unstated precondition of these operations. -/
theorem c10_empty_body_attr_error (c : BurstChainClient) (t : Option String)
    (action path chain aid signer cname contract m r tql : String)
    (owners newo : List String) (asset : Json) (meta : Option Json)
    (fin : Option String) :
    _send c emptyOkRemote action path none none none = .ok none ∧
    get_private_id c emptyOkRemote = .error .attrError ∧
    get_public_id c emptyOkRemote t = .error .attrError ∧
    create_asset c emptyOkRemote t chain owners asset meta = .error .attrError ∧
    get_asset_status c emptyOkRemote t chain aid = .error .attrError ∧
    update_asset c emptyOkRemote t chain aid asset meta = .error .attrError ∧
    transfer_asset c emptyOkRemote t chain aid owners newo signer = .error .attrError ∧
    query c emptyOkRemote t chain tql = .error .attrError ∧
    map_reduce c emptyOkRemote t chain m r fin tql = .error .attrError ∧
    create_consent c emptyOkRemote t chain owners cname contract = .error .attrError :=
  ⟨rfl, rfl, rfl, rfl, rfl, rfl, rfl, rfl, rfl, rfl⟩

/-- C5: `create_asset` issues exactly one POST to
`/api/burstchain/{tenant}/{chain}/asset` carrying the private-id
authorization header and the JSON body of `owners`, `asset` and
`asset_metadata` built from its arguments, and returns the `asset_id`
field of the decoded response; in particular a 200 response whose body
binds `asset_id` to `A1` yields `A1`. -/
theorem c5_create_asset (c : BurstChainClient) (remote : Remote) (t : String)
    (chain : String) (owners : List String) (asset : Json) (meta : Option Json)
    (ht : t ≠ "") :
    (create_asset c remote (some t) chain owners asset meta =
      (_send c remote "POST" ("/api/burstchain/" ++ c.client ++ "/" ++ chain ++ "/asset")
          (some [("Authorization", "ID " ++ t)])
          (some (Json.obj [("owners", strArr owners), ("asset", asset),
            ("asset_metadata", optJson meta)])) none) >>=
        (fun resp => respGet resp "asset_id")) ∧
    (remote (_send_request c "POST"
          ("/api/burstchain/" ++ c.client ++ "/" ++ chain ++ "/asset")
          (some [("Authorization", "ID " ++ t)])
          (some (Json.obj [("owners", strArr owners), ("asset", asset),
            ("asset_metadata", optJson meta)])) none)
        = ⟨200, "\x7b\"asset_id\": \"A1\"\x7d"⟩ →
      create_asset c remote (some t) chain owners asset meta
        = .ok (some (Json.str "A1"))) := by
  have h1 : create_asset c remote (some t) chain owners asset meta =
      (_send c remote "POST" ("/api/burstchain/" ++ c.client ++ "/" ++ chain ++ "/asset")
          (some [("Authorization", "ID " ++ t)])
          (some (Json.obj [("owners", strArr owners), ("asset", asset),
            ("asset_metadata", optJson meta)])) none) >>=
        (fun resp => respGet resp "asset_id") := by
    simp [create_asset, _send_with_priv_id, ht]
  refine ⟨h1, fun hresp => ?_⟩
  rw [h1]
  show (_send_handle _ (remote (_send_request c "POST" _ _ _ none)) >>= _) = _
  rw [hresp]
  rfl

/-- Witness for C5: a concrete client, token and remote answering 200 with
a body binding `asset_id` to `A1`. -/
theorem c5_create_asset_witness :
    create_asset (BurstChainClient.make "s" "tn")
        (fun _ => ⟨200, "\x7b\"asset_id\": \"A1\"\x7d"⟩)
        (some "P") "address" ["O1"] (Json.obj []) none = .ok (some (Json.str "A1")) :=
  (c5_create_asset (BurstChainClient.make "s" "tn")
      (fun _ => ⟨200, "\x7b\"asset_id\": \"A1\"\x7d"⟩)
      "P" "address" ["O1"] (Json.obj []) none (by decide)).2 rfl

/-- C8: `query` issues one POST to `/api/burstchain/{tenant}/{chain}/query`
with the private-id header and the body binding `tqlWhereClause`, and
returns the `assets` field of the response; `map_reduce` issues one POST to
`/api/burstchain/{tenant}/{chain}/mapreduce/query` with the private-id
header and the body binding `map`, `reduce`, `finalize` and
`tqlWhereClause`, and returns the `records` field. -/
theorem c8_query_map_reduce (c : BurstChainClient) (remote : Remote) (t : String)
    (chain tql m r : String) (fin : Option String) (ht : t ≠ "") :
    (query c remote (some t) chain tql =
      (_send c remote "POST" ("/api/burstchain/" ++ c.client ++ "/" ++ chain ++ "/query")
          (some [("Authorization", "ID " ++ t)])
          (some (Json.obj [("tqlWhereClause", Json.str tql)])) none) >>=
        (fun resp => respGet resp "assets")) ∧
    (map_reduce c remote (some t) chain m r fin tql =
      (_send c remote "POST"
          ("/api/burstchain/" ++ c.client ++ "/" ++ chain ++ "/mapreduce/query")
          (some [("Authorization", "ID " ++ t)])
          (some (Json.obj [("map", Json.str m), ("reduce", Json.str r),
            ("finalize", optStr fin), ("tqlWhereClause", Json.str tql)])) none) >>=
        (fun resp => respGet resp "records")) := by
  constructor <;> simp [query, map_reduce, _send_with_priv_id, ht]

/-- Witness for C8: the `query` delegation at a concrete client, token and
remote. -/
theorem c8_query_map_reduce_witness :
    query (BurstChainClient.make "s" "tn") emptyOkRemote (some "P") "address" "W" =
      (_send (BurstChainClient.make "s" "tn") emptyOkRemote "POST"
          ("/api/burstchain/" ++ "tn" ++ "/" ++ "address" ++ "/query")
          (some [("Authorization", "ID " ++ "P")])
          (some (Json.obj [("tqlWhereClause", Json.str "W")])) none) >>=
        (fun resp => respGet resp "assets") :=
  (c8_query_map_reduce (BurstChainClient.make "s" "tn") emptyOkRemote "P" "address" "W"
      "m" "r" none (by decide)).1

theorem skipWs_cons_not_ws {c : Char} (cs : List Char) (h : isWsChar c = false) :
    skipWs (c :: cs) = c :: cs := by
  simp [skipWs, h]

theorem isDig_ne {c e : Char} (h : isDig c = true) (he : isDig e = false) :
    (c = e) = False :=
  eq_false fun hce => by rw [hce, he] at h; exact Bool.noConfusion h

theorem isDig_not_ws {c : Char} (h : isDig c = true) : isWsChar c = false := by
  have h1 : (c = ' ') = False := isDig_ne h (by decide)
  have h2 : (c = '\t') = False := isDig_ne h (by decide)
  have h3 : (c = '\n') = False := isDig_ne h (by decide)
  have h4 : (c = '\r') = False := isDig_ne h (by decide)
  simp [isWsChar, h1, h2, h3, h4]

theorem parseStrChars_escape (s rest : List Char) :
    parseStrChars (escapeChars s ++ '"' :: rest) = some (s, rest) := by
  induction s with
  | nil =>
    show parseStrChars ('"' :: rest) = some ([], rest)
    rw [parseStrChars.eq_def]
    simp
  | cons c cs ih =>
    have hesc : escapeChars (c :: cs) = escapeChar c ++ escapeChars cs := by
      simp [escapeChars]
    rw [hesc, List.append_assoc]
    by_cases h1 : c = '"'
    · subst h1
      show parseStrChars ('\\' :: '"' :: (escapeChars cs ++ '"' :: rest)) = _
      rw [parseStrChars.eq_def]
      simp [escDecode, ih]
    · by_cases h2 : c = '\\'
      · subst h2
        show parseStrChars ('\\' :: '\\' :: (escapeChars cs ++ '"' :: rest)) = _
        rw [parseStrChars.eq_def]
        simp [escDecode, ih]
      · by_cases h3 : c = '\n'
        · subst h3
          show parseStrChars ('\\' :: 'n' :: (escapeChars cs ++ '"' :: rest)) = _
          rw [parseStrChars.eq_def]
          simp [escDecode, ih]
        · by_cases h4 : c = '\t'
          · subst h4
            show parseStrChars ('\\' :: 't' :: (escapeChars cs ++ '"' :: rest)) = _
            rw [parseStrChars.eq_def]
            simp [escDecode, ih]
          · by_cases h5 : c = '\r'
            · subst h5
              show parseStrChars ('\\' :: 'r' :: (escapeChars cs ++ '"' :: rest)) = _
              rw [parseStrChars.eq_def]
              simp [escDecode, ih]
            · have hec : escapeChar c = [c] := by simp [escapeChar, h1, h2, h3, h4, h5]
              rw [hec, List.singleton_append, parseStrChars.eq_def]
              simp [h1, h2, ih]

theorem takeDigits_append (l rest : List Char) (hl : ∀ c ∈ l, isDig c = true)
    (hr : headNotDig rest = true) :
    takeDigits (l ++ rest) = (l, rest) := by
  induction l with
  | nil =>
    cases rest with
    | nil => rfl
    | cons c cs =>
      have hc : isDig c = false := by
        have : (!isDig c) = true := hr
        simpa using this
      simp [takeDigits, hc]
  | cons c cs ih =>
    have hc : isDig c = true := hl c (by simp)
    have ih2 := ih fun d hd => hl d (by simp [hd])
    simp [takeDigits, hc, ih2]

theorem digitChar_spec (d : Nat) (hd : d < 10) :
    isDig (digitChar d) = true ∧ digitVal (digitChar d) = d := by
  interval_cases d <;> exact ⟨by decide, by decide⟩

theorem foldr_ofDigits (L : List Nat) :
    L.foldr (fun d a => 10 * a + d) 0 = Nat.ofDigits 10 L := by
  induction L with
  | nil => simp [Nat.ofDigits]
  | cons d ds ih =>
    simp [Nat.ofDigits_cons, ih]
    ring

theorem digitsVal_map_digitChar : ∀ L : List Nat, (∀ d ∈ L, d < 10) →
    ∀ acc : Nat, (L.map digitChar).foldl (fun a c => 10 * a + digitVal c) acc
      = L.foldl (fun a d => 10 * a + d) acc := by
  intro L
  induction L with
  | nil => intro _ _; rfl
  | cons d ds ih =>
    intro hL acc
    have hd := (digitChar_spec d (hL d (by simp))).2
    simp only [List.map_cons, List.foldl_cons, hd]
    exact ih (fun x hx => hL x (by simp [hx])) _

theorem digitsVal_natChars (m : Nat) : digitsVal (natChars m) = m := by
  by_cases h0 : m = 0
  · subst h0; decide
  · have hrev : ∀ d ∈ (Nat.digits 10 m).reverse, d < 10 := by
      intro d hd
      exact Nat.digits_lt_base (by norm_num) (List.mem_reverse.mp hd)
    unfold natChars digitsVal
    rw [if_neg h0]
    rw [digitsVal_map_digitChar _ hrev 0, List.foldl_reverse, foldr_ofDigits,
      Nat.ofDigits_digits]

theorem natChars_all_digits (m : Nat) : ∀ c ∈ natChars m, isDig c = true := by
  intro c hc
  unfold natChars at hc
  by_cases h0 : m = 0
  · rw [if_pos h0] at hc
    simp only [List.mem_singleton] at hc
    subst hc; decide
  · rw [if_neg h0] at hc
    simp only [List.mem_map] at hc
    obtain ⟨d, hd, rfl⟩ := hc
    have hlt : d < 10 := Nat.digits_lt_base (by norm_num) (List.mem_reverse.mp hd)
    exact (digitChar_spec d hlt).1

theorem natChars_ne_nil (m : Nat) : natChars m ≠ [] := by
  unfold natChars
  by_cases h0 : m = 0
  · simp [h0]
  · rw [if_neg h0]
    simp [Nat.digits_ne_nil_iff_ne_zero, h0]

theorem parseVal_intChars (g : Nat) (n : Int) (rest : List Char)
    (hr : headNotDig rest = true) :
    parseVal (g + 1) (intChars n ++ rest) = some (Json.num n, rest) := by
  by_cases hneg : n < 0
  · rw [show intChars n = '-' :: natChars n.natAbs from by simp [intChars, hneg]]
    cases hnc : natChars n.natAbs with
    | nil => exact absurd hnc (natChars_ne_nil _)
    | cons c0 cs0 =>
      have htd : takeDigits (c0 :: (cs0 ++ rest)) = (c0 :: cs0, rest) := by
        rw [← List.cons_append, ← hnc]
        exact takeDigits_append _ _ (natChars_all_digits _) hr
      have hval : digitsVal (c0 :: cs0) = n.natAbs := by
        rw [← hnc]; exact digitsVal_natChars _
      have hn : -(((n.natAbs : Nat)) : Int) = n := by omega
      have hwsm : isWsChar '-' = false := by decide
      rw [List.cons_append, List.cons_append, parseVal.eq_def]
      simp [skipWs, hwsm, htd, hval, hn]
      rw [abs_of_neg hneg, neg_neg]
  · rw [show intChars n = natChars n.toNat from by simp [intChars, hneg]]
    cases hnc : natChars n.toNat with
    | nil => exact absurd hnc (natChars_ne_nil _)
    | cons c0 cs0 =>
      have hdig : isDig c0 = true := by
        have hall := natChars_all_digits n.toNat
        rw [hnc] at hall
        exact hall c0 (by simp)
      have htd : takeDigits (c0 :: (cs0 ++ rest)) = (c0 :: cs0, rest) := by
        rw [← List.cons_append, ← hnc]
        exact takeDigits_append _ _ (natChars_all_digits _) hr
      have hval : digitsVal (c0 :: cs0) = n.toNat := by
        rw [← hnc]; exact digitsVal_natChars _
      have hws := isDig_not_ws hdig
      have e1 : (c0 = 'n') = False := isDig_ne hdig (by decide)
      have e2 : (c0 = 't') = False := isDig_ne hdig (by decide)
      have e3 : (c0 = 'f') = False := isDig_ne hdig (by decide)
      have e4 : (c0 = '"') = False := isDig_ne hdig (by decide)
      have e5 : (c0 = '-') = False := isDig_ne hdig (by decide)
      have hn : (((n.toNat : Nat)) : Int) = n := by omega
      rw [List.cons_append, parseVal.eq_def]
      simp [skipWs, hws, e1, e2, e3, e4, e5, hdig, htd, hval, hn]

theorem parseVal_strChars (g : Nat) (s : String) (rest : List Char) :
    parseVal (g + 1) (strChars s ++ rest) = some (Json.str s, rest) := by
  have harr : strChars s ++ rest = '"' :: (escapeChars s.toList ++ '"' :: rest) := by
    simp [strChars]
  have hws : isWsChar '"' = false := by decide
  rw [harr, parseVal.eq_def]
  simp [skipWs, hws, parseStrChars_escape]

theorem dumpChars_head_spec (j : Json) :
    ∃ c cs, dumpChars j = c :: cs ∧ isWsChar c = false ∧ (c = ']') = False ∧
      (c = rbrace) = False := by
  cases j with
  | null =>
    exact ⟨'n', ['u', 'l', 'l'], by rw [dumpChars]; rfl, by decide, eq_false (by decide),
      eq_false (by decide)⟩
  | bool b =>
    cases b with
    | true =>
      exact ⟨'t', ['r', 'u', 'e'], by rw [dumpChars]; rfl, by decide, eq_false (by decide),
        eq_false (by decide)⟩
    | false =>
      exact ⟨'f', ['a', 'l', 's', 'e'], by rw [dumpChars]; rfl, by decide, eq_false (by decide),
        eq_false (by decide)⟩
  | num n =>
    by_cases hneg : n < 0
    · refine ⟨'-', natChars n.natAbs, ?_, by decide, eq_false (by decide),
        eq_false (by decide)⟩
      rw [dumpChars]
      simp [intChars, hneg]
    · cases hnc : natChars n.toNat with
      | nil => exact absurd hnc (natChars_ne_nil _)
      | cons c0 cs0 =>
        have hdig : isDig c0 = true := by
          have hall := natChars_all_digits n.toNat
          rw [hnc] at hall
          exact hall c0 (by simp)
        refine ⟨c0, cs0, ?_, isDig_not_ws hdig, isDig_ne hdig (by decide),
          isDig_ne hdig (by decide)⟩
        rw [dumpChars]
        simp [intChars, hneg, hnc]
  | str s =>
    exact ⟨'"', escapeChars s.toList ++ ['"'], by rw [dumpChars]; rfl, by decide,
      eq_false (by decide), eq_false (by decide)⟩
  | arr xs =>
    exact ⟨'[', dumpElems xs ++ [']'], by rw [dumpChars], by decide,
      eq_false (by decide), eq_false (by decide)⟩
  | obj kvs =>
    exact ⟨lbrace, dumpMembers kvs ++ [rbrace], by rw [dumpChars], by decide,
      eq_false (by decide), eq_false (by decide)⟩

theorem parse_dump_master : ∀ fuel : Nat,
    (∀ (j : Json) (rest : List Char), (dumpChars j).length + 1 ≤ fuel →
      headNotDig rest = true → parseVal fuel (dumpChars j ++ rest) = some (j, rest)) ∧
    (∀ (xs : List Json) (rest : List Char), (dumpElems xs).length + 2 ≤ fuel →
      parseElems fuel (dumpElems xs ++ ']' :: rest) = some (xs, rest)) ∧
    (∀ (kvs : List (String × Json)) (rest : List Char), (dumpMembers kvs).length + 2 ≤ fuel →
      parseMembers fuel (dumpMembers kvs ++ rbrace :: rest) = some (kvs, rest)) := by
  intro fuel
  induction fuel with
  | zero =>
    exact ⟨fun j rest h _ => absurd h (by omega),
      fun xs rest h => absurd h (by omega),
      fun kvs rest h => absurd h (by omega)⟩
  | succ g ih =>
    obtain ⟨ihv, ihe, ihm⟩ := ih
    refine ⟨?_, ?_, ?_⟩
    · intro j rest hlen hnd
      cases j with
      | null =>
        rw [show dumpChars Json.null = ['n', 'u', 'l', 'l'] from by rw [dumpChars]; rfl]
        rw [List.cons_append, parseVal.eq_def]
        simp [skipWs, isWsChar, expects]
      | bool b =>
        cases b with
        | true =>
          rw [show dumpChars (Json.bool true) = ['t', 'r', 'u', 'e'] from by rw [dumpChars]; rfl]
          rw [List.cons_append, parseVal.eq_def]
          simp [skipWs, isWsChar, expects]
        | false =>
          rw [show dumpChars (Json.bool false) = ['f', 'a', 'l', 's', 'e'] from by
            rw [dumpChars]; rfl]
          rw [List.cons_append, parseVal.eq_def]
          simp [skipWs, isWsChar, expects]
      | num n =>
        rw [show dumpChars (Json.num n) = intChars n from by rw [dumpChars]]
        exact parseVal_intChars g n rest hnd
      | str s =>
        rw [show dumpChars (Json.str s) = strChars s from by rw [dumpChars]]
        exact parseVal_strChars g s rest
      | arr xs =>
        have hdc : dumpChars (Json.arr xs) = '[' :: (dumpElems xs ++ [']']) := by
          rw [dumpChars]
        have hlen2 : (dumpElems xs).length + 2 ≤ g := by
          rw [hdc] at hlen
          simp only [List.length_cons, List.length_append, List.length_singleton] at hlen
          omega
        have he := ihe xs rest hlen2
        have hdg : isDig '[' = false := by decide
        rw [hdc, List.cons_append, List.append_assoc, List.singleton_append,
          parseVal.eq_def]
        simp [skipWs, isWsChar, hdg, he]
      | obj kvs =>
        have hdc : dumpChars (Json.obj kvs) = lbrace :: (dumpMembers kvs ++ [rbrace]) := by
          rw [dumpChars]
        have hlen2 : (dumpMembers kvs).length + 2 ≤ g := by
          rw [hdc] at hlen
          simp only [List.length_cons, List.length_append, List.length_singleton] at hlen
          omega
        have hm := ihm kvs rest hlen2
        have hwsl : isWsChar lbrace = false := by decide
        have f1 : (lbrace = 'n') = False := eq_false (by decide)
        have f2 : (lbrace = 't') = False := eq_false (by decide)
        have f3 : (lbrace = 'f') = False := eq_false (by decide)
        have f4 : (lbrace = '"') = False := eq_false (by decide)
        have f5 : (lbrace = '-') = False := eq_false (by decide)
        have f6 : isDig lbrace = false := by decide
        have f7 : (lbrace = '[') = False := eq_false (by decide)
        rw [hdc, List.cons_append, List.append_assoc, List.singleton_append,
          parseVal.eq_def]
        simp [skipWs, hwsl, f1, f2, f3, f4, f5, f6, f7, hm]
    · intro xs rest hlen
      cases xs with
      | nil =>
        rw [show dumpElems ([] : List Json) = [] from by rw [dumpElems]]
        rw [List.nil_append, parseElems.eq_def]
        simp [skipWs, isWsChar]
      | cons x xs' =>
        obtain ⟨c0, cs0, hd, hws, hbr, _⟩ := dumpChars_head_spec x
        cases xs' with
        | nil =>
          have hdE : dumpElems [x] = dumpChars x := by rw [dumpElems]
          have hlenv : (dumpChars x).length + 1 ≤ g := by
            rw [hdE] at hlen
            omega
          have hv := ihv x (']' :: rest) hlenv rfl
          have w1 : isWsChar ']' = false := by decide
          rw [hd, List.cons_append] at hv
          rw [hdE, hd, List.cons_append, parseElems.eq_def]
          simp [skipWs, hws, hbr, w1, hv]
        | cons y ys =>
          have hdE : dumpElems (x :: y :: ys) =
              dumpChars x ++ ',' :: dumpElems (y :: ys) := by rw [dumpElems]
          have hlenv : (dumpChars x).length + 1 ≤ g := by
            rw [hdE] at hlen
            simp only [List.length_append, List.length_cons] at hlen
            omega
          have hlene : (dumpElems (y :: ys)).length + 2 ≤ g := by
            rw [hdE] at hlen
            simp only [List.length_append, List.length_cons] at hlen
            omega
          have hv := ihv x (',' :: (dumpElems (y :: ys) ++ ']' :: rest)) hlenv rfl
          have hre := ihe (y :: ys) rest hlene
          have w2 : isWsChar ',' = false := by decide
          rw [hd, List.cons_append] at hv
          rw [hdE, List.append_assoc, List.cons_append, hd, List.cons_append,
            parseElems.eq_def]
          simp [skipWs, hws, hbr, w2, hv, hre]
    · intro kvs rest hlen
      cases kvs with
      | nil =>
        rw [show dumpMembers ([] : List (String × Json)) = [] from by rw [dumpMembers]]
        rw [List.nil_append, parseMembers.eq_def]
        have hwsr : isWsChar rbrace = false := by decide
        simp [skipWs, hwsr]
      | cons kv ms =>
        obtain ⟨k, v⟩ := kv
        have hq1 : isWsChar '"' = false := by decide
        have hq2 : (('"' : Char) = rbrace) = False := eq_false (by decide)
        have hwsc : isWsChar ':' = false := by decide
        have hwsr : isWsChar rbrace = false := by decide
        have hrb1 : (rbrace = ',') = False := eq_false (by decide)
        cases ms with
        | nil =>
          have hdM : dumpMembers [(k, v)] = strChars k ++ ':' :: dumpChars v := by
            rw [dumpMembers]
          have hlenv : (dumpChars v).length + 1 ≤ g := by
            rw [hdM] at hlen
            simp only [List.length_append, List.length_cons, strChars,
              List.length_singleton] at hlen
            omega
          have hv := ihv v (rbrace :: rest) hlenv rfl
          rw [hdM, parseMembers.eq_def]
          simp [strChars, skipWs, hq1, hq2, hwsc, hwsr, hrb1, parseStrChars_escape, hv]
        | cons m ms' =>
          have hdM : dumpMembers ((k, v) :: m :: ms') =
              strChars k ++ ':' :: dumpChars v ++ ',' :: dumpMembers (m :: ms') := by
            rw [dumpMembers]
          have hlenv : (dumpChars v).length + 1 ≤ g := by
            rw [hdM] at hlen
            simp only [List.length_append, List.length_cons, strChars,
              List.length_singleton] at hlen
            omega
          have hlenm : (dumpMembers (m :: ms')).length + 2 ≤ g := by
            rw [hdM] at hlen
            simp only [List.length_append, List.length_cons, strChars,
              List.length_singleton] at hlen
            omega
          have hv := ihv v (',' :: (dumpMembers (m :: ms') ++ rbrace :: rest)) hlenv rfl
          have hrm := ihm (m :: ms') rest hlenm
          have w2 : isWsChar ',' = false := by decide
          rw [hdM, parseMembers.eq_def]
          simp [strChars, skipWs, hq1, hq2, hwsc, hwsr, hrb1, w2, parseStrChars_escape,
            hv, hrm]

theorem json_parse_dump (j : Json) : Json.parse (Json.dump j) = some j := by
  have hmain := (parse_dump_master ((dumpChars j).length + 1)).1 j [] (le_refl _) rfl
  rw [List.append_nil] at hmain
  unfold Json.parse Json.dump
  rw [show (String.mk (dumpChars j)).toList = dumpChars j from rfl]
  rw [show (String.mk (dumpChars j)).length = (dumpChars j).length from rfl]
  rw [hmain]
  simp [skipWs]

/-- C6: `put_metadata` performs exactly one PUT to `/api/metadata/dictionary`
with HTTP basic auth `(username, password)`, the request body observed by
the server is exactly the dictionary passed in — decoding the JSON encoding
applied by the transport recovers the dictionary — and the whole parsed
response is returned. -/
theorem c6_put_metadata_roundtrip (c : BurstChainClient) (remote : Remote)
    (dictionary : Json) (username password : String) :
    (put_metadata c remote dictionary username password =
      _send c remote "PUT" "/api/metadata/dictionary" none (some dictionary)
        (some (username, password))) ∧
    ((_send_request c "PUT" "/api/metadata/dictionary" none (some dictionary)
        (some (username, password))).action = "PUT") ∧
    ((_send_request c "PUT" "/api/metadata/dictionary" none (some dictionary)
        (some (username, password))).url = c.server ++ "/api/metadata/dictionary") ∧
    ((_send_request c "PUT" "/api/metadata/dictionary" none (some dictionary)
        (some (username, password))).body = some dictionary) ∧
    ((_send_request c "PUT" "/api/metadata/dictionary" none (some dictionary)
        (some (username, password))).auth = some (username, password)) ∧
    (Json.parse (Json.dump dictionary) = some dictionary) :=
  ⟨rfl, rfl, rfl, rfl, rfl, json_parse_dump dictionary⟩
